/-
Verification of The Spark Pit frontend and its chat relay contract.

The definitions below are a shallow embedding of the repository's
JavaScript source: the React auth context (`AuthContext.jsx`), the route
gate (`RequireActive` in `App.js`), the shared axios/WebSocket helpers
(`lib/api.js`), the page handlers (`Login.jsx`, `Bounties.jsx`,
`BountyDetail.jsx`, `Bots.jsx`, `ChatPanel`), and — where the backend
server is not part of the repository snapshot — models written from the
specification's own description of the broadcast-on-write chat relay.
-/
import Mathlib

namespace SparkPit

/-- A user document as the frontend sees it (`/me`, login and register
responses); only the field the gating logic reads is kept. -/
structure User where
  membership_status : String
deriving DecidableEq, Repr

/-- The auth context state exposed by `AuthProvider`:
`user` and `loading`. -/
structure AuthState where
  loading : Bool
  user : Option User
deriving DecidableEq, Repr

/-- What a routed element renders: the loading screen, a redirect, a
public page, or the gated `AppShell` content. -/
inductive RenderResult where
  | loadingScreen
  | redirectLogin
  | redirectJoin
  | redirectHome
  | publicPage (name : String)
  | content
deriving DecidableEq, Repr

/-- `RequireActive` from `App.js`: show the loading screen while auth is
bootstrapping, redirect to `/login` when there is no user, redirect to
`/join` when the user's `membership_status` is not `"active"`, and render
the children otherwise. -/
def RequireActive (s : AuthState) : RenderResult :=
  if s.loading then .loadingScreen
  else
    match s.user with
    | none => .redirectLogin
    | some u =>
      if u.membership_status ≠ "active" then .redirectJoin else .content

/-- The route table of `AppRoutes` in `App.js`: `/`, `/join` and `/login`
are public; `/app` and everything nested under it is wrapped in
`RequireActive`; any other path navigates home. -/
def routeElement (path : String) (s : AuthState) : RenderResult :=
  if path = "/" then .publicPage "Landing"
  else if path = "/join" then .publicPage "Join"
  else if path = "/login" then .publicPage "Login"
  else if path = "/app" ∨ List.isPrefixOf "/app/".data path.data
    then RequireActive s
  else .redirectHome

/-- A path is under `/app` when it is `/app` itself or starts with
`/app/`. -/
def underApp (path : String) : Prop :=
  path = "/app" ∨ List.isPrefixOf "/app/".data path.data

instance (path : String) : Decidable (underApp path) := by
  unfold underApp; infer_instance

/-- Result of the `GET /me` request made during auth bootstrap. -/
inductive MeResult where
  | ok (u : User)
  | failed
deriving DecidableEq, Repr

/-- The externally visible auth state after `bootstrap` finishes:
the token in `localStorage`, the axios `Authorization` default header,
the context `user`, and the `loading` flag. -/
structure AuthBootState where
  storedToken : Option String
  authHeader : Option String
  user : Option User
  loading : Bool
deriving DecidableEq, Repr

/-- `setAuthToken` from `lib/api.js`: a truthy token installs a
`Bearer` Authorization default header, a falsy one deletes it. -/
def setAuthToken (token : Option String) : Option String :=
  match token with
  | some t => if t = "" then none else some ("Bearer " ++ t)
  | none => none

/-- `bootstrap` from `AuthContext.jsx`: read `spark_token` from
`localStorage`; when truthy, install it and ask `GET /me`; on failure
remove the stored token and clear the header; finally clear `loading`. -/
def bootstrap (stored : Option String) (me : String → MeResult) :
    AuthBootState :=
  match stored with
  | none =>
    { storedToken := none, authHeader := none, user := none,
      loading := false }
  | some t =>
    if t = "" then
      { storedToken := some t, authHeader := none, user := none,
        loading := false }
    else
      match me t with
      | .ok u =>
        { storedToken := some t, authHeader := setAuthToken (some t),
          user := some u, loading := false }
      | .failed =>
        { storedToken := none, authHeader := setAuthToken none,
          user := none, loading := false }

/-- A chat message document; the fields the relay reads. -/
structure Message where
  id : String
  channel_id : String
  content : String
deriving DecidableEq, Repr

/-- A connected WebSocket: the client opens
`/api/ws?channelId=...` (`getWsUrl` in `lib/api.js`), so each connection
carries the channel it subscribed to. -/
structure Conn where
  connId : Nat
  channelId : String
deriving DecidableEq, Repr

/-- An observable step of the message-creation handler: a store write of
the message document, or a push of the document to one socket. -/
inductive RelayEvent where
  | write (m : Message)
  | push (c : Conn) (m : Message)
deriving DecidableEq, Repr

/-- Modelled from the spec: the backend message-creation handler is not
under `src/` (only the frontend `ChatPanel` caller is). Per the spec it
has one consistency contract — "write the document, then push it to
connected sockets" — and broadcasts "a newly created chat message to
WebSocket connections subscribed to a channel". The handler's trace is
the store write followed by one push per connection subscribed to the
message's channel. -/
def createMessage (conns : List Conn) (m : Message) : List RelayEvent :=
  RelayEvent.write m ::
    (conns.filter (fun c => c.channelId = m.channel_id)).map
      (fun c => RelayEvent.push c m)

/-- The document store after the handler runs: the message is appended. -/
def storeAfterCreate (store : List Message) (m : Message) : List Message :=
  store ++ [m]

/-- Modelled from the spec: the fan-out over a sequence of arrivals, "a
direct, best-effort push with no buffering, ordering guarantee beyond
arrival order, retry, or delivery acknowledgment". Each arrival is
relayed to the sockets connected at that moment, in arrival order. -/
def broadcastRun (conns : List Conn) (arrivals : List Message) :
    List (Conn × Message) :=
  arrivals.flatMap (fun m =>
    (conns.filter (fun c => c.channelId = m.channel_id)).map
      (fun c => (c, m)))

/-- The sequence of messages a given socket receives from a run, in
delivery order. -/
def deliveredTo (c : Conn) : List (Conn × Message) → List Message
  | [] => []
  | p :: rest =>
    if p.1 = c then p.2 :: deliveredTo c rest else deliveredTo c rest

/-- An observable action of a page handler: an HTTP request through the
shared axios instance, a toast, or a navigation. -/
inductive ClientAction where
  | request (method : String) (path : String)
  | toastSuccess (text : String)
  | toastError (text : String)
  | navigate (dest : String)
deriving DecidableEq, Repr

/-- Outcome of an awaited request as the `try`/`catch` sees it. -/
inductive ReqOutcome where
  | ok
  | err
deriving DecidableEq, Repr

/-- `handleLogin` from `Login.jsx` (with `login` from
`AuthContext.jsx` inlined): post `/auth/login`; on success toast and
navigate to `/app` or `/join` by membership status; on failure toast
"Login failed.". -/
def handleLogin (res : ReqOutcome) (membership : String) :
    List ClientAction :=
  match res with
  | .ok =>
    [ClientAction.request "POST" "/auth/login",
     ClientAction.toastSuccess "Welcome back to the Pit."]
      ++ (if membership = "active" then [ClientAction.navigate "/app"]
          else [ClientAction.navigate "/join"])
  | .err =>
    [ClientAction.request "POST" "/auth/login",
     ClientAction.toastError "Login failed."]

/-- `loadBounties` from `Bounties.jsx`: one GET; on failure a toast. -/
def loadBounties (res : ReqOutcome) : List ClientAction :=
  match res with
  | .ok => [ClientAction.request "GET" "/bounties"]
  | .err =>
    [ClientAction.request "GET" "/bounties",
     ClientAction.toastError "Unable to load bounties."]

/-- `claimBounty` from `BountyDetail.jsx`: post the claim; on success
toast and reload the bounty (`loadBounty`); on failure a toast only. -/
def claimBounty (id : String) (res : ReqOutcome) : List ClientAction :=
  match res with
  | .ok =>
    [ClientAction.request "POST" ("/bounties/" ++ id ++ "/claim"),
     ClientAction.toastSuccess "Bounty claimed.",
     ClientAction.request "GET" ("/bounties/" ++ id)]
  | .err =>
    [ClientAction.request "POST" ("/bounties/" ++ id ++ "/claim"),
     ClientAction.toastError "Unable to claim bounty."]

/-- `createBot` from `Bots.jsx`, as written: it awaits
`api.post("/bots", payload)` and then awaits the same
`api.post("/bots", payload)` a second line in a row, keeping only the
second response; on success it toasts and reloads via `loadBots`
(`GET /me/bots`); any failure is caught with a toast. -/
def createBot (res1 res2 : ReqOutcome) : List ClientAction :=
  match res1 with
  | .err =>
    [ClientAction.request "POST" "/bots",
     ClientAction.toastError "Unable to create bot."]
  | .ok =>
    match res2 with
    | .err =>
      [ClientAction.request "POST" "/bots",
       ClientAction.request "POST" "/bots",
       ClientAction.toastError "Unable to create bot."]
    | .ok =>
      [ClientAction.request "POST" "/bots",
       ClientAction.request "POST" "/bots",
       ClientAction.toastSuccess "Bot registered.",
       ClientAction.request "GET" "/me/bots"]

/-- Whether an action is an HTTP request. -/
def isRequest : ClientAction → Bool
  | .request _ _ => true
  | _ => false

/-- Number of HTTP requests a handler run issues. -/
def countRequests (l : List ClientAction) : Nat :=
  (l.filter isRequest).length

/-- Whether a handler run surfaced an error toast. -/
def hasErrorToast (l : List ClientAction) : Bool :=
  l.any (fun a =>
    match a with
    | .toastError _ => true
    | _ => false)

/-- The five option values of the status `<select>` in
`BountyDetail.jsx`. -/
def bountyStatusEnum : List String :=
  ["open", "claimed", "submitted", "approved", "cancelled"]

/-- A bounty document; the field the status control touches. -/
structure Bounty where
  id : String
  status : String
deriving DecidableEq, Repr

/-- Modelled from the spec: the backend bounty status update endpoint is
not under `src/` (only the frontend `updateStatus` caller is). Per the
spec the entities carry "status enums typical of CRUD schemas": the
update sets the bounty's status to the requested enum member and rejects
a value outside the enum. -/
def setBountyStatus (b : Bounty) (s : String) : Option Bounty :=
  if s ∈ bountyStatusEnum then some { b with status := s } else none

/-- The value the status `<select>` submits: one of its option values. -/
def statusSelectValue (i : Fin bountyStatusEnum.length) : String :=
  bountyStatusEnum.get i

/-- JS `String.prototype.replace` with a string pattern: replace the
first occurrence of `pat`, if any, by `rep`. -/
def replFirst (pat rep : List Char) : List Char → List Char
  | [] => if List.isPrefixOf pat ([] : List Char) then rep else []
  | c :: rest =>
    if List.isPrefixOf pat (c :: rest) then
      rep ++ (c :: rest).drop pat.length
    else c :: replFirst pat rep rest

/-- Whether `pat` occurs as a contiguous run anywhere in the list. -/
def occursIn (pat : List Char) : List Char → Bool
  | [] => List.isPrefixOf pat ([] : List Char)
  | c :: rest => List.isPrefixOf pat (c :: rest) || occursIn pat rest

/-- `getWsUrl` from `lib/api.js`: empty string for a falsy
`REACT_APP_BACKEND_URL`; otherwise
`BACKEND_URL.replace("https://", "wss://").replace("http://", "ws://")`
followed by `"/api/ws?channelId=" + channelId`. -/
def getWsUrl (backendUrl : Option String) (channelId : String) : String :=
  match backendUrl with
  | none => ""
  | some u =>
    if u = "" then ""
    else
      String.mk (replFirst "http://".data "ws://".data
          (replFirst "https://".data "wss://".data u.data))
        ++ "/api/ws?channelId=" ++ channelId

/-- The claim's description of `getWsUrl`: the backend URL with a
LEADING `https://` replaced by `wss://` (or a leading `http://` by
`ws://`), then the `/api/ws` suffix. Stated from the claim's words, to be
compared with the source's `getWsUrl`. -/
def getWsUrlClaim (backendUrl : Option String) (channelId : String) :
    String :=
  match backendUrl with
  | none => ""
  | some u =>
    if u = "" then ""
    else
      String.mk
          (if List.isPrefixOf "https://".data u.data then
            "wss://".data ++ u.data.drop 8
          else if List.isPrefixOf "http://".data u.data then
            "ws://".data ++ u.data.drop 7
          else u.data)
        ++ "/api/ws?channelId=" ++ channelId

/-- A network call site in the frontend source: a request through the
shared axios instance (whose `baseURL` is `API_BASE`, i.e.
`BACKEND_URL ++ "/api"`), the chat WebSocket opened via `getWsUrl`, or a
raw `fetch` with a URL relative to the page's own origin. -/
inductive NetTarget where
  | apiPath (method : String) (path : String)
  | wsChannel (channelId : String)
  | rawFetch (method : String) (url : String)
deriving DecidableEq, Repr

/-- Every network call site in the frontend source, with dynamic URL
segments written as `:name`: the auth context, the app shell, the rooms
and channels sidebars, the Rooms/Bounties/BountyDetail/Bots/Join pages,
the chat panel (REST and WebSocket), the Settings, Activity and Ops
pages — and the Refunds admin page, whose two calls go through a raw
`fetch` against `/admin/refunds...` instead of the shared instance. -/
def frontendRequestSites : List NetTarget :=
  [NetTarget.apiPath "GET" "/me",
   NetTarget.apiPath "POST" "/auth/login",
   NetTarget.apiPath "POST" "/auth/register",
   NetTarget.apiPath "GET" "/rooms",
   NetTarget.apiPath "POST" "/rooms",
   NetTarget.apiPath "POST" "/rooms/:slug/join",
   NetTarget.apiPath "POST" "/rooms/:slug/channels",
   NetTarget.apiPath "GET" "/rooms/:slug",
   NetTarget.apiPath "GET" "/channels/:channelId/messages",
   NetTarget.apiPath "POST" "/channels/:channelId/messages",
   NetTarget.wsChannel ":channelId",
   NetTarget.apiPath "GET" "/bounties",
   NetTarget.apiPath "POST" "/bounties",
   NetTarget.apiPath "GET" "/bounties/:id",
   NetTarget.apiPath "POST" "/bounties/:id/claim",
   NetTarget.apiPath "POST" "/bounties/:id/updates",
   NetTarget.apiPath "POST" "/bounties/:id/status",
   NetTarget.apiPath "POST" "/auth/invite/claim",
   NetTarget.apiPath "POST" "/payments/stripe/checkout",
   NetTarget.apiPath "GET" "/payments/stripe/checkout/status/:sessionId",
   NetTarget.apiPath "GET" "/me/bots",
   NetTarget.apiPath "POST" "/bots",
   NetTarget.apiPath "POST" "/rooms/:slug/join-bot",
   NetTarget.apiPath "PATCH" "/me",
   NetTarget.apiPath "POST" "/admin/invite-codes",
   NetTarget.apiPath "GET" "/admin/audit",
   NetTarget.apiPath "GET" "/activity",
   NetTarget.apiPath "GET" "/admin/ops",
   NetTarget.rawFetch "GET" "/admin/refunds",
   NetTarget.rawFetch "POST" "/admin/refunds/:paymentIntentId"]

/-- The URL a site resolves to, given `BACKEND_URL`: axios sites are
relative to `API_BASE = BACKEND_URL ++ "/api"`; the WebSocket uses
`getWsUrl`; raw `fetch` URLs stay relative to the page origin. -/
def resolvedUrl (backendUrl : String) : NetTarget → String
  | .apiPath _ p => backendUrl ++ "/api" ++ p
  | .wsChannel cid => getWsUrl (some backendUrl) cid
  | .rawFetch _ u => u

/-- Whether a site goes through the shared REST base or the
`/api/ws` WebSocket endpoint. -/
def targetsSharedApi : NetTarget → Bool
  | .apiPath _ _ => true
  | .wsChannel _ => true
  | .rawFetch _ _ => false

/-- JS whitespace as `String.prototype.trim` removes it, restricted to
the ASCII range. -/
def jsWhitespace (c : Char) : Bool :=
  c == ' ' || c == '\t' || c == '\n' || c == '\r' ||
    c == '\x0b' || c == '\x0c'

/-- JS `String.prototype.trim`: drop whitespace from both ends. -/
def jsTrim (l : List Char) : List Char :=
  ((l.dropWhile jsWhitespace).reverse.dropWhile jsWhitespace).reverse

/-- JS `String.prototype.split(",")`, accumulator formulation: cut the
input at every comma, keeping empty segments. -/
def splitCommaAux (cur : List Char) : List Char → List (List Char)
  | [] => [cur.reverse]
  | c :: rest =>
    if c = ',' then cur.reverse :: splitCommaAux [] rest
    else splitCommaAux (c :: cur) rest

/-- JS `tags.split(",")`. -/
def splitComma (l : List Char) : List (List Char) :=
  splitCommaAux [] l

/-- The `tags` field `createBounty` in `Bounties.jsx` sends:
`form.tags.split(",").map((tag) => tag.trim()).filter(Boolean)`. -/
def bountyTags (tags : List Char) : List (List Char) :=
  ((splitComma tags).map jsTrim).filter (fun t => !t.isEmpty)

/-- The `reward_amount` field of the payload: `null` or the numeric
conversion `Number(field)`, kept symbolic. -/
inductive RewardPayload where
  | null
  | num (field : String)
deriving DecidableEq, Repr

/-- `reward_amount: form.reward_amount ? Number(form.reward_amount) :
null` — among strings only `""` is falsy. -/
def bountyReward (field : String) : RewardPayload :=
  if field = "" then .null else .num field

/-- Joining segments back with commas; the left inverse of
`splitComma`. -/
def joinComma : List (List Char) → List Char
  | [] => []
  | [s] => s
  | s :: rest => s ++ ',' :: joinComma rest

/-- **C1.** For every navigation to a route under `/app` with the auth
bootstrap finished: the gated content is rendered exactly when there is an
authenticated user whose `membership_status` is `"active"`; with no user
the navigation redirects to `/login`; with a user whose status is not
`"active"` it redirects to `/join`. -/
theorem app_routes_gated_by_active_membership
    (path : String) (s : AuthState)
    (hApp : underApp path) (hLoaded : s.loading = false) :
    (routeElement path s = .content ↔
      ∃ u, s.user = some u ∧ u.membership_status = "active")
    ∧ (s.user = none → routeElement path s = .redirectLogin)
    ∧ (∀ u, s.user = some u → u.membership_status ≠ "active" →
        routeElement path s = .redirectJoin) := by
  have hroute : routeElement path s = RequireActive s := by
    unfold routeElement
    rcases hApp with h | h
    · subst h; simp
    · have h1 : path ≠ "/" := by
        intro hc; subst hc; exact absurd h (by decide)
      have h2 : path ≠ "/join" := by
        intro hc; subst hc; exact absurd h (by decide)
      have h3 : path ≠ "/login" := by
        intro hc; subst hc; exact absurd h (by decide)
      simp [h1, h2, h3, h]
  rw [hroute]
  unfold RequireActive
  rw [hLoaded]
  refine ⟨?_, ?_, ?_⟩
  · constructor
    · intro hc
      match hu : s.user with
      | none => simp [hu] at hc
      | some u =>
        refine ⟨u, rfl, ?_⟩
        simp only [hu] at hc
        by_cases hm : u.membership_status = "active"
        · exact hm
        · simp [hm] at hc
    · rintro ⟨u, hu, hm⟩
      simp [hu, hm]
  · intro hu; simp [hu]
  · intro u hu hm; simp [hu, hm]

/-- Witness for C1 at `path = "/app/bounties"` on three concrete auth
states. -/
theorem app_routes_gated_witness :
    routeElement "/app/bounties" ⟨false, none⟩ = .redirectLogin
    ∧ routeElement "/app/bounties" ⟨false, some ⟨"pending"⟩⟩ =
        .redirectJoin
    ∧ routeElement "/app/bounties" ⟨false, some ⟨"active"⟩⟩ = .content := by
  refine ⟨?_, ?_, ?_⟩
  · exact (app_routes_gated_by_active_membership "/app/bounties"
      ⟨false, none⟩ (by right; decide) rfl).2.1 rfl
  · exact (app_routes_gated_by_active_membership "/app/bounties"
      ⟨false, some ⟨"pending"⟩⟩ (by right; decide) rfl).2.2
      ⟨"pending"⟩ rfl (by decide)
  · exact (app_routes_gated_by_active_membership "/app/bounties"
      ⟨false, some ⟨"active"⟩⟩ (by right; decide) rfl).1.mpr
      ⟨⟨"active"⟩, rfl, rfl⟩

/-- **C10.** When a token is stored but `GET /me` fails during bootstrap,
the stored token is removed, the Authorization header is cleared, no user
is set, and loading ends false: the logged-out state. -/
theorem bootstrap_invalid_token_logs_out
    (t : String) (me : String → MeResult)
    (ht : t ≠ "") (hme : me t = .failed) :
    bootstrap (some t) me =
      { storedToken := none, authHeader := none, user := none,
        loading := false } := by
  unfold bootstrap
  simp [ht, hme, setAuthToken]

/-- Witness for C10 at the stored token `"stale"` with a failing
`GET /me`. -/
theorem bootstrap_invalid_token_witness :
    bootstrap (some "stale") (fun _ => .failed) =
      { storedToken := none, authHeader := none, user := none,
        loading := false } :=
  bootstrap_invalid_token_logs_out "stale" (fun _ => .failed)
    (by decide) rfl

/-- `deliveredTo` distributes over appended runs. -/
lemma deliveredTo_append (c : Conn) (r1 r2 : List (Conn × Message)) :
    deliveredTo c (r1 ++ r2) = deliveredTo c r1 ++ deliveredTo c r2 := by
  induction r1 with
  | nil => rfl
  | cons p rest ih =>
    by_cases hp : p.1 = c
    · simp [deliveredTo, hp, ih]
    · simp [deliveredTo, hp, ih]

/-- A socket that is not among the connections receives nothing from a
single-message batch. -/
lemma deliveredTo_batch_absent (c : Conn) (conns : List Conn)
    (ch : String) (m : Message) (hc : c ∉ conns) :
    deliveredTo c
      ((conns.filter (fun c2 => c2.channelId = ch)).map
        (fun c2 => (c2, m))) = [] := by
  induction conns with
  | nil => simp [deliveredTo]
  | cons a rest ih =>
    rw [List.mem_cons, not_or] at hc
    obtain ⟨hca, hcr⟩ := hc
    by_cases hp : a.channelId = ch <;>
      simp [List.filter_cons, hp, deliveredTo, Ne.symm hca, ih hcr]

/-- What one broadcast batch delivers to a socket, given that the
connection list has no duplicate sockets: exactly the message when the
socket is connected and subscribed to the batch's channel, nothing
otherwise. -/
lemma deliveredTo_batch (c : Conn) (conns : List Conn) (ch : String)
    (m : Message) (hnd : conns.Nodup) :
    deliveredTo c
      ((conns.filter (fun c2 => c2.channelId = ch)).map
        (fun c2 => (c2, m))) =
      if c ∈ conns ∧ c.channelId = ch then [m] else [] := by
  induction conns with
  | nil => simp [deliveredTo]
  | cons a rest ih =>
    rw [List.nodup_cons] at hnd
    obtain ⟨har, hrest⟩ := hnd
    by_cases hac : c = a
    · subst hac
      by_cases hp : c.channelId = ch
      · simp [List.filter_cons, hp, deliveredTo,
          deliveredTo_batch_absent c rest ch m har]
      · simp [List.filter_cons, hp, deliveredTo,
          deliveredTo_batch_absent c rest ch m har]
    · by_cases hp : a.channelId = ch
      · simp [List.filter_cons, hp, deliveredTo, Ne.symm hac, ih hrest,
          hac]
      · simp [List.filter_cons, hp, ih hrest, hac]

/-- The full fan-out run, socket by socket: a connected socket receives
the arrivals addressed to its channel in arrival order; an absent socket
receives nothing. -/
lemma deliveredTo_broadcastRun (c : Conn) (conns : List Conn)
    (arrivals : List Message) (hnd : conns.Nodup) :
    deliveredTo c (broadcastRun conns arrivals) =
      if c ∈ conns then
        arrivals.filter (fun m => c.channelId = m.channel_id)
      else [] := by
  induction arrivals with
  | nil => by_cases hc : c ∈ conns <;> simp [broadcastRun, deliveredTo, hc]
  | cons m rest ih =>
    have hrun : broadcastRun conns (m :: rest) =
        ((conns.filter (fun c2 => c2.channelId = m.channel_id)).map
          (fun c2 => (c2, m))) ++ broadcastRun conns rest := by
      simp [broadcastRun]
    rw [hrun, deliveredTo_append,
      deliveredTo_batch c conns m.channel_id m hnd, ih]
    by_cases hc : c ∈ conns
    · by_cases hch : c.channelId = m.channel_id
      · simp [hc, hch, List.filter_cons]
      · simp [hc, hch, List.filter_cons]
    · simp [hc]

/-- **C2.** The message-creation handler first writes the message
document to the store and only then pushes it to connected sockets: the
trace starts with the store write, and every push in the trace is a push
of the freshly written message, which is in the store after the
operation, at a strictly later trace position than its write. -/
theorem message_written_before_push
    (conns : List Conn) (store : List Message) (m : Message) :
    (createMessage conns m).head? = some (RelayEvent.write m)
    ∧ ∀ c m0, RelayEvent.push c m0 ∈ createMessage conns m →
        m0 = m ∧ m0 ∈ storeAfterCreate store m
        ∧ ∃ i j : Nat, i < j
            ∧ (createMessage conns m)[i]? = some (RelayEvent.write m0)
            ∧ (createMessage conns m)[j]? =
                some (RelayEvent.push c m0) := by
  constructor
  · rfl
  · intro c m0 hmem
    have htail : RelayEvent.push c m0 ∈
        (conns.filter (fun c2 => c2.channelId = m.channel_id)).map
          (fun c2 => RelayEvent.push c2 m) := by
      rcases List.mem_cons.mp hmem with h | h
      · exact absurd h (by simp)
      · exact h
    have hm0 : m0 = m := by
      obtain ⟨c2, _, heq⟩ := List.mem_map.mp htail
      rw [RelayEvent.push.injEq] at heq
      exact heq.2.symm
    subst hm0
    refine ⟨rfl, by simp [storeAfterCreate], ?_⟩
    obtain ⟨j, hj⟩ := List.getElem?_of_mem htail
    exact ⟨0, j + 1, Nat.succ_pos j, by simp [createMessage], by
      simpa [createMessage] using hj⟩

/-- Witness for C2: one subscribed connection, one message; the push that
occurs is of the written message, later in the trace than the write. -/
theorem message_written_before_push_witness :
    (⟨"m1", "ch1", "hi"⟩ : Message) = ⟨"m1", "ch1", "hi"⟩
    ∧ (⟨"m1", "ch1", "hi"⟩ : Message) ∈
        storeAfterCreate [] ⟨"m1", "ch1", "hi"⟩
    ∧ ∃ i j : Nat, i < j
        ∧ (createMessage [⟨1, "ch1"⟩] ⟨"m1", "ch1", "hi"⟩)[i]? =
            some (RelayEvent.write ⟨"m1", "ch1", "hi"⟩)
        ∧ (createMessage [⟨1, "ch1"⟩] ⟨"m1", "ch1", "hi"⟩)[j]? =
            some (RelayEvent.push ⟨1, "ch1"⟩ ⟨"m1", "ch1", "hi"⟩) :=
  (message_written_before_push [⟨1, "ch1"⟩] [] ⟨"m1", "ch1", "hi"⟩).2
    ⟨1, "ch1"⟩ ⟨"m1", "ch1", "hi"⟩ (by decide)

/-- **C3.** The broadcast of a newly created message pushes it exactly to
the connections subscribed to the message's channel: every push goes to a
connection whose subscribed channel equals the message's channel (so a
connection subscribed to a different channel never receives it), and
every subscribed connection is pushed to. -/
theorem broadcast_only_subscribed_channel
    (conns : List Conn) (m : Message) :
    (∀ c m0, RelayEvent.push c m0 ∈ createMessage conns m →
        c ∈ conns ∧ c.channelId = m0.channel_id)
    ∧ ∀ c, c ∈ conns → c.channelId = m.channel_id →
        RelayEvent.push c m ∈ createMessage conns m := by
  constructor
  · intro c m0 hmem
    have htail : RelayEvent.push c m0 ∈
        (conns.filter (fun c2 => c2.channelId = m.channel_id)).map
          (fun c2 => RelayEvent.push c2 m) := by
      rcases List.mem_cons.mp hmem with h | h
      · exact absurd h (by simp)
      · exact h
    obtain ⟨c2, hc2, heq⟩ := List.mem_map.mp htail
    obtain ⟨hc2mem, hc2ch⟩ := List.mem_filter.mp hc2
    have hcc : c2 = c ∧ m = m0 := by
      have := heq
      rw [RelayEvent.push.injEq] at this
      exact this
    obtain ⟨hc2c, hmm0⟩ := hcc
    subst hc2c; subst hmm0
    exact ⟨hc2mem, of_decide_eq_true hc2ch⟩
  · intro c hc hch
    refine List.mem_cons.mpr (Or.inr ?_)
    exact List.mem_map.mpr ⟨c,
      List.mem_filter.mpr ⟨hc, decide_eq_true hch⟩, rfl⟩

/-- Witness for C3: with one connection on `ch1` and one on `ch2`, the
`ch1` message is pushed to the `ch1` socket, and every push of the
broadcast targets a socket subscribed to the message's channel. -/
theorem broadcast_only_subscribed_witness :
    (RelayEvent.push ⟨1, "ch1"⟩ ⟨"m1", "ch1", "hi"⟩ ∈
        createMessage [⟨1, "ch1"⟩, ⟨2, "ch2"⟩] ⟨"m1", "ch1", "hi"⟩)
    ∧ (⟨1, "ch1"⟩ : Conn) ∈ ([⟨1, "ch1"⟩, ⟨2, "ch2"⟩] : List Conn)
    ∧ (⟨1, "ch1"⟩ : Conn).channelId =
        (⟨"m1", "ch1", "hi"⟩ : Message).channel_id :=
  ⟨(broadcast_only_subscribed_channel [⟨1, "ch1"⟩, ⟨2, "ch2"⟩]
      ⟨"m1", "ch1", "hi"⟩).2 ⟨1, "ch1"⟩ (by decide) rfl,
    ((broadcast_only_subscribed_channel [⟨1, "ch1"⟩, ⟨2, "ch2"⟩]
      ⟨"m1", "ch1", "hi"⟩).1 ⟨1, "ch1"⟩ ⟨"m1", "ch1", "hi"⟩
      (by decide)).1,
    ((broadcast_only_subscribed_channel [⟨1, "ch1"⟩, ⟨2, "ch2"⟩]
      ⟨"m1", "ch1", "hi"⟩).1 ⟨1, "ch1"⟩ ⟨"m1", "ch1", "hi"⟩
      (by decide)).2⟩

/-- **C6.** The fan-out delivers to each connected socket the messages of
its channel in arrival order; a socket absent from the connection list
when messages arrive receives none of them (no buffering); and no message
is delivered to a socket more often than it arrived (no redelivery or
retry). -/
theorem fanout_arrival_order_best_effort
    (conns : List Conn) (arrivals : List Message) (c : Conn)
    (hnd : conns.Nodup) :
    (c ∈ conns → deliveredTo c (broadcastRun conns arrivals) =
        arrivals.filter (fun m => c.channelId = m.channel_id))
    ∧ (c ∉ conns → deliveredTo c (broadcastRun conns arrivals) = [])
    ∧ ∀ m, (deliveredTo c (broadcastRun conns arrivals)).count m ≤
        arrivals.count m := by
  refine ⟨?_, ?_, ?_⟩
  · intro hc
    rw [deliveredTo_broadcastRun c conns arrivals hnd]
    simp [hc]
  · intro hc
    rw [deliveredTo_broadcastRun c conns arrivals hnd]
    simp [hc]
  · intro m
    rw [deliveredTo_broadcastRun c conns arrivals hnd]
    by_cases hc : c ∈ conns
    · simp only [hc, if_true]
      exact (List.filter_sublist arrivals).count_le m
    · simp [hc]

/-- Witness for C6: two sockets on different channels, three arrivals;
the `ch1` socket receives exactly the `ch1` messages in order, a
disconnected socket receives nothing, and counts do not exceed arrival
counts. -/
theorem fanout_arrival_order_witness :
    deliveredTo ⟨1, "ch1"⟩
        (broadcastRun [⟨1, "ch1"⟩, ⟨2, "ch2"⟩]
          [⟨"m1", "ch1", "a"⟩, ⟨"m2", "ch2", "b"⟩, ⟨"m3", "ch1", "c"⟩]) =
      List.filter (fun m => (⟨1, "ch1"⟩ : Conn).channelId = m.channel_id)
        [⟨"m1", "ch1", "a"⟩, ⟨"m2", "ch2", "b"⟩, ⟨"m3", "ch1", "c"⟩]
    ∧ deliveredTo ⟨3, "ch1"⟩
        (broadcastRun [⟨1, "ch1"⟩, ⟨2, "ch2"⟩]
          [⟨"m1", "ch1", "a"⟩, ⟨"m2", "ch2", "b"⟩, ⟨"m3", "ch1", "c"⟩]) =
      [] :=
  ⟨(fanout_arrival_order_best_effort [⟨1, "ch1"⟩, ⟨2, "ch2"⟩]
      [⟨"m1", "ch1", "a"⟩, ⟨"m2", "ch2", "b"⟩, ⟨"m3", "ch1", "c"⟩]
      ⟨1, "ch1"⟩ (by decide)).1 (by decide),
    (fanout_arrival_order_best_effort [⟨1, "ch1"⟩, ⟨2, "ch2"⟩]
      [⟨"m1", "ch1", "a"⟩, ⟨"m2", "ch2", "b"⟩, ⟨"m3", "ch1", "c"⟩]
      ⟨3, "ch1"⟩ (by decide)).2.1 (by decide)⟩

/-- **C4** (evaluation at the failing point). The cited handlers behave
as the claim states — on failure each run of `handleLogin`,
`loadBounties` and `claimBounty` surfaces an error toast and has issued
exactly its one request, with no retry or compensating request — but
`createBot` in `Bots.jsx` issues its `POST /bots` request twice in a
single user action (a duplicated await line), contradicting the claim's
at-most-once clause. -/
theorem handlers_toast_once_but_createBot_posts_twice :
    (countRequests (handleLogin .err "active") = 1
      ∧ hasErrorToast (handleLogin .err "active") = true)
    ∧ (countRequests (loadBounties .err) = 1
      ∧ hasErrorToast (loadBounties .err) = true)
    ∧ (countRequests (claimBounty "b1" .err) = 1
      ∧ hasErrorToast (claimBounty "b1" .err) = true)
    ∧ (createBot .ok .ok).count (ClientAction.request "POST" "/bots") = 2
    ∧ (createBot .ok .err).count
        (ClientAction.request "POST" "/bots") = 2 := by
  decide

/-- **C5.** Every status update maps a bounty's status to a member of the
fixed enum {open, claimed, submitted, approved, cancelled}: a successful
update ends with a status in the enum, and the frontend status control
only ever submits values of the enum. -/
theorem bounty_status_stays_in_enum
    (b b2 : Bounty) (s : String)
    (h : setBountyStatus b s = some b2) :
    b2.status ∈ bountyStatusEnum
    ∧ ∀ i : Fin bountyStatusEnum.length,
        statusSelectValue i ∈ bountyStatusEnum := by
  constructor
  · unfold setBountyStatus at h
    by_cases hs : s ∈ bountyStatusEnum
    · rw [if_pos hs] at h
      have hb2 : ({ b with status := s } : Bounty) = b2 :=
        Option.some.inj h
      rw [← hb2]
      exact hs
    · rw [if_neg hs] at h
      exact absurd h (by simp)
  · intro i
    exact List.get_mem bountyStatusEnum i.1 i.2

/-- Witness for C5 at a concrete update of an open bounty to
`"claimed"`. -/
theorem bounty_status_witness :
    (⟨"b1", "claimed"⟩ : Bounty).status ∈ bountyStatusEnum :=
  (bounty_status_stays_in_enum ⟨"b1", "open"⟩ ⟨"b1", "claimed"⟩
    "claimed" (by decide)).1

/-- A pattern that occurs nowhere in the list is not replaced. -/
lemma replFirst_of_not_occurs (pat rep : List Char) (s : List Char)
    (h : occursIn pat s = false) : replFirst pat rep s = s := by
  induction s with
  | nil =>
    rw [occursIn] at h
    simp [replFirst, h]
  | cons c rest ih =>
    rw [occursIn, Bool.or_eq_false_iff] at h
    obtain ⟨h1, h2⟩ := h
    simp [replFirst, h1, ih h2]

/-- `http://` cannot start inside the literal prefix `wss://`, so its
occurrences in `wss://` ++ rest are exactly its occurrences in rest. -/
lemma occursIn_http_wss (rest : List Char) :
    occursIn "http://".data ("wss://".data ++ rest) =
      occursIn "http://".data rest := by
  simp [occursIn, List.isPrefixOf]

/-- `https://` cannot start inside the literal prefix `http://`, so its
occurrences in `http://` ++ rest are exactly its occurrences in rest. -/
lemma occursIn_https_http (rest : List Char) :
    occursIn "https://".data ("http://".data ++ rest) =
      occursIn "https://".data rest := by
  simp [occursIn, List.isPrefixOf]

/-- **C8 (amended).** `getWsUrl` returns `""` when the backend URL is
unset or empty; for a backend URL of the form `https://` ++ rest (resp.
`http://` ++ rest) it returns the URL with the leading scheme swapped to
`wss://` (resp. `ws://`) followed by `"/api/ws?channelId="` and the
channel id, PROVIDED rest contains no later occurrence of `http://`
(resp. of `https://` or `http://`) — because the source uses
`String.replace`, which rewrites the first occurrence anywhere, not only
a leading scheme. -/
theorem getWsUrl_leading_scheme (channelId : String) :
    getWsUrl none channelId = ""
    ∧ getWsUrl (some "") channelId = ""
    ∧ (∀ rest : List Char,
        occursIn "http://".data rest = false →
        getWsUrl (some (String.mk ("https://".data ++ rest))) channelId =
          String.mk ("wss://".data ++ rest) ++ "/api/ws?channelId=" ++
            channelId)
    ∧ (∀ rest : List Char,
        occursIn "https://".data rest = false →
        getWsUrl (some (String.mk ("http://".data ++ rest))) channelId =
          String.mk ("ws://".data ++ rest) ++ "/api/ws?channelId=" ++
            channelId) := by
  refine ⟨rfl, rfl, ?_, ?_⟩
  · intro rest hrest
    have hne : String.mk ("https://".data ++ rest) ≠ "" := by
      simp [String.ext_iff]
    have hfirst : replFirst "https://".data "wss://".data
        ("https://".data ++ rest) = "wss://".data ++ rest := by
      simp [replFirst, List.isPrefixOf]
    have hsecond : replFirst "http://".data "ws://".data
        ("wss://".data ++ rest) = "wss://".data ++ rest :=
      replFirst_of_not_occurs _ _ _
        ((occursIn_http_wss rest).trans hrest)
    show (if String.mk ("https://".data ++ rest) = "" then ""
      else String.mk (replFirst "http://".data "ws://".data
          (replFirst "https://".data "wss://".data
            (String.mk ("https://".data ++ rest)).data))
        ++ "/api/ws?channelId=" ++ channelId) =
      String.mk ("wss://".data ++ rest) ++ "/api/ws?channelId=" ++
        channelId
    rw [if_neg hne,
      show (String.mk ("https://".data ++ rest)).data =
        "https://".data ++ rest from rfl,
      hfirst, hsecond]
  · intro rest hrest
    have hne : String.mk ("http://".data ++ rest) ≠ "" := by
      simp [String.ext_iff]
    have hfirst : replFirst "https://".data "wss://".data
        ("http://".data ++ rest) = "http://".data ++ rest :=
      replFirst_of_not_occurs _ _ _
        ((occursIn_https_http rest).trans hrest)
    have hsecond : replFirst "http://".data "ws://".data
        ("http://".data ++ rest) = "ws://".data ++ rest := by
      simp [replFirst, List.isPrefixOf]
    show (if String.mk ("http://".data ++ rest) = "" then ""
      else String.mk (replFirst "http://".data "ws://".data
          (replFirst "https://".data "wss://".data
            (String.mk ("http://".data ++ rest)).data))
        ++ "/api/ws?channelId=" ++ channelId) =
      String.mk ("ws://".data ++ rest) ++ "/api/ws?channelId=" ++
        channelId
    rw [if_neg hne,
      show (String.mk ("http://".data ++ rest)).data =
        "http://".data ++ rest from rfl,
      hfirst, hsecond]

/-- Witness for C8 at the typical backend URL `https://example.com` and
channel id `abc`. -/
theorem getWsUrl_leading_scheme_witness :
    getWsUrl (some (String.mk ("https://".data ++ "example.com".data)))
        "abc" =
      String.mk ("wss://".data ++ "example.com".data) ++
        "/api/ws?channelId=" ++ "abc" :=
  (getWsUrl_leading_scheme "abc").2.2.1 "example.com".data (by decide)

/-- **C8 counterexample.** The claim as stated — only a LEADING scheme is
replaced — fails: for the backend URL `https://a/http://b` the source's
`getWsUrl` also rewrites the later `http://`, because JS
`String.replace` replaces the first occurrence anywhere and the second
`replace` call runs on the result of the first. -/
theorem getWsUrl_claim_counterexample :
    getWsUrl (some "https://a/http://b") "c" =
      "wss://a/ws://b/api/ws?channelId=c"
    ∧ getWsUrlClaim (some "https://a/http://b") "c" =
      "wss://a/http://b/api/ws?channelId=c"
    ∧ getWsUrl (some "https://a/http://b") "c" ≠
      getWsUrlClaim (some "https://a/http://b") "c" := by
  refine ⟨?_, ?_, ?_⟩ <;> decide

/-- **C7 counterexample.** Not every frontend network call targets the
shared `${BACKEND_URL}/api` base or the `/api/ws` WebSocket endpoint: the
Refunds admin page calls `fetch("/admin/refunds")` — a raw fetch against
the page's own origin — so the claim as stated is false. -/
theorem frontend_requests_counterexample :
    NetTarget.rawFetch "GET" "/admin/refunds" ∈ frontendRequestSites
    ∧ targetsSharedApi (NetTarget.rawFetch "GET" "/admin/refunds") = false
    ∧ ¬ ∀ t ∈ frontendRequestSites, targetsSharedApi t = true := by
  refine ⟨by decide, rfl, ?_⟩
  intro h
  exact absurd (h (NetTarget.rawFetch "GET" "/admin/refunds") (by decide))
    (by decide)

/-- **C7 (amended).** Every network call site of the SPA targets the
shared axios REST base `${BACKEND_URL}/api` or the WebSocket endpoint
`${BACKEND_URL}/api/ws` — except the two raw `fetch` calls of the
Refunds admin page, which go to `/admin/refunds` paths on the page's own
origin. -/
theorem frontend_requests_api_or_ws_except_refunds
    (t : NetTarget) (ht : t ∈ frontendRequestSites) :
    targetsSharedApi t = true
    ∨ t = NetTarget.rawFetch "GET" "/admin/refunds"
    ∨ t = NetTarget.rawFetch "POST" "/admin/refunds/:paymentIntentId" := by
  have h : ∀ x ∈ frontendRequestSites, targetsSharedApi x = true
      ∨ x = NetTarget.rawFetch "GET" "/admin/refunds"
      ∨ x = NetTarget.rawFetch "POST" "/admin/refunds/:paymentIntentId" :=
    by decide
  exact h t ht

/-- Witness for the amended C7 at the bounty-list call site. -/
theorem frontend_requests_api_witness :
    targetsSharedApi (NetTarget.apiPath "GET" "/bounties") = true
    ∨ NetTarget.apiPath "GET" "/bounties" =
        NetTarget.rawFetch "GET" "/admin/refunds"
    ∨ NetTarget.apiPath "GET" "/bounties" =
        NetTarget.rawFetch "POST" "/admin/refunds/:paymentIntentId" :=
  frontend_requests_api_or_ws_except_refunds
    (NetTarget.apiPath "GET" "/bounties") (by decide)

/-- `splitCommaAux` always produces at least one segment. -/
lemma splitCommaAux_ne_nil (l : List Char) :
    ∀ cur, splitCommaAux cur l ≠ [] := by
  induction l with
  | nil => intro cur; simp [splitCommaAux]
  | cons c rest ih =>
    intro cur
    by_cases hc : c = ','
    · simp [splitCommaAux, hc]
    · simpa [splitCommaAux, hc] using ih (c :: cur)

/-- `joinComma` on a cons with a nonempty tail. -/
lemma joinComma_cons (s : List Char) (S : List (List Char)) (h : S ≠ []) :
    joinComma (s :: S) = s ++ ',' :: joinComma S := by
  cases S with
  | nil => exact absurd rfl h
  | cons a T => rfl

/-- Splitting at commas is lossless: joining the segments with commas
recovers the input (accumulator form). -/
lemma joinComma_splitCommaAux (l : List Char) :
    ∀ cur, joinComma (splitCommaAux cur l) = cur.reverse ++ l := by
  induction l with
  | nil => intro cur; simp [splitCommaAux, joinComma]
  | cons c rest ih =>
    intro cur
    by_cases hc : c = ','
    · subst hc
      rw [show splitCommaAux cur (',' :: rest) =
          cur.reverse :: splitCommaAux [] rest from by simp [splitCommaAux]]
      rw [joinComma_cons _ _ (splitCommaAux_ne_nil rest []), ih []]
      simp
    · rw [show splitCommaAux cur (c :: rest) =
          splitCommaAux (c :: cur) rest from by simp [splitCommaAux, hc]]
      rw [ih (c :: cur)]
      simp

/-- No segment produced by `splitCommaAux` contains a comma. -/
lemma splitCommaAux_no_comma (l : List Char) :
    ∀ cur, ',' ∉ cur → ∀ seg ∈ splitCommaAux cur l, ',' ∉ seg := by
  induction l with
  | nil =>
    intro cur hcur seg hseg
    rw [show splitCommaAux cur [] = [cur.reverse] from rfl,
      List.mem_singleton] at hseg
    subst hseg
    simpa using hcur
  | cons c rest ih =>
    intro cur hcur seg hseg
    by_cases hc : c = ','
    · subst hc
      rw [show splitCommaAux cur (',' :: rest) =
          cur.reverse :: splitCommaAux [] rest from by
            simp [splitCommaAux]] at hseg
      rcases List.mem_cons.mp hseg with h | h
      · subst h; simpa using hcur
      · exact ih [] (by simp) seg h
    · rw [show splitCommaAux cur (c :: rest) =
          splitCommaAux (c :: cur) rest from by
            simp [splitCommaAux, hc]] at hseg
      have hnc : ',' ∉ c :: cur := by
        intro hin
        rcases List.mem_cons.mp hin with h | h
        · exact hc h.symm
        · exact hcur h
      exact ih (c :: cur) hnc seg hseg

/-- The head surviving `dropWhile p` does not satisfy `p`. -/
lemma head_dropWhile_not (p : Char → Bool) (l : List Char) (x : Char)
    (h : (l.dropWhile p).head? = some x) : p x = false := by
  induction l with
  | nil => simp [List.dropWhile] at h
  | cons a rest ih =>
    rw [List.dropWhile_cons] at h
    by_cases hp : p a
    · rw [if_pos hp] at h
      exact ih h
    · rw [if_neg hp] at h
      have hax : a = x := by simpa using h
      rw [← hax]
      exact Bool.eq_false_iff.mpr hp

/-- `dropWhile` only removes from the front, so when something is left
the last element is unchanged. -/
lemma getLast_dropWhile (p : Char → Bool) (l : List Char)
    (h : l.dropWhile p ≠ []) : (l.dropWhile p).getLast? = l.getLast? := by
  induction l with
  | nil => simp [List.dropWhile] at h
  | cons a rest ih =>
    rw [List.dropWhile_cons] at h ⊢
    by_cases hp : p a
    · rw [if_pos hp] at h ⊢
      have hrest : rest ≠ [] := by
        intro hr; subst hr; simp [List.dropWhile] at h
      rw [ih h]
      obtain ⟨b, T, rfl⟩ := List.exists_cons_of_ne_nil hrest
      rw [List.getLast?_cons_cons]
    · rw [if_neg hp]

/-- A trimmed string does not start with whitespace. -/
lemma jsTrim_head_ok (l : List Char) :
    ((jsTrim l).head?.all fun c => !jsWhitespace c) = true := by
  unfold jsTrim
  rw [List.head?_reverse]
  by_cases hBn :
      (l.dropWhile jsWhitespace).reverse.dropWhile jsWhitespace = []
  · rw [hBn]; rfl
  · rw [getLast_dropWhile _ _ hBn, List.getLast?_reverse]
    cases hx : (l.dropWhile jsWhitespace).head? with
    | none => rfl
    | some x =>
      have hw := head_dropWhile_not jsWhitespace l x hx
      simp [hw]

/-- A trimmed string does not end with whitespace. -/
lemma jsTrim_last_ok (l : List Char) :
    ((jsTrim l).getLast?.all fun c => !jsWhitespace c) = true := by
  unfold jsTrim
  rw [List.getLast?_reverse]
  cases hx :
      ((l.dropWhile jsWhitespace).reverse.dropWhile jsWhitespace).head?
      with
  | none => rfl
  | some x =>
    have hw := head_dropWhile_not jsWhitespace
      (l.dropWhile jsWhitespace).reverse x hx
    simp [hw]

/-- **C9.** The tags `createBounty` sends are exactly the trimmed
non-empty comma-separated segments of the input in their original order:
splitting is a lossless comma segmentation, the sent list is an
order-preserving sublist of the trimmed segments, each sent tag is
non-empty and trimmed at both ends, every non-empty trimmed segment is
sent, and reward_amount is null exactly for the empty field and the
numeric conversion of the field otherwise. -/
theorem createBounty_tags_reward (s : List Char) (r : String) :
    joinComma (splitComma s) = s
    ∧ (∀ seg ∈ splitComma s, ',' ∉ seg)
    ∧ List.Sublist (bountyTags s) ((splitComma s).map jsTrim)
    ∧ (∀ t ∈ bountyTags s, t ≠ []
        ∧ ((t.head?.all fun c => !jsWhitespace c) = true)
        ∧ ((t.getLast?.all fun c => !jsWhitespace c) = true))
    ∧ (∀ seg ∈ splitComma s, jsTrim seg ≠ [] → jsTrim seg ∈ bountyTags s)
    ∧ (bountyReward r = RewardPayload.null ↔ r = "")
    ∧ (r ≠ "" → bountyReward r = RewardPayload.num r) := by
  refine ⟨?_, ?_, ?_, ?_, ?_, ?_, ?_⟩
  · simpa [splitComma] using joinComma_splitCommaAux s []
  · exact splitCommaAux_no_comma s [] (by simp)
  · exact List.filter_sublist _
  · intro t ht
    obtain ⟨hmem, hne⟩ := List.mem_filter.mp ht
    obtain ⟨seg, hseg, rfl⟩ := List.mem_map.mp hmem
    refine ⟨?_, jsTrim_head_ok seg, jsTrim_last_ok seg⟩
    intro h0
    rw [h0] at hne
    simp at hne
  · intro seg hseg hne
    refine List.mem_filter.mpr ⟨List.mem_map.mpr ⟨seg, hseg, rfl⟩, ?_⟩
    simpa [List.isEmpty_iff] using hne
  · unfold bountyReward
    constructor
    · intro h
      by_cases hr : r = ""
      · exact hr
      · rw [if_neg hr] at h
        exact absurd h (by simp)
    · intro h
      rw [if_pos h]
  · intro h
    unfold bountyReward
    rw [if_neg h]

/-- Witness for C9 at the tags input `"ai, research ,,tools"` and the
empty reward field. -/
theorem createBounty_tags_reward_witness :
    joinComma (splitComma "ai, research ,,tools".data) =
      "ai, research ,,tools".data
    ∧ jsTrim " research ".data ∈ bountyTags "ai, research ,,tools".data
    ∧ bountyReward "" = RewardPayload.null :=
  ⟨(createBounty_tags_reward "ai, research ,,tools".data "").1,
   (createBounty_tags_reward "ai, research ,,tools".data "").2.2.2.2.1
     " research ".data (by decide) (by decide),
   (createBounty_tags_reward
     "ai, research ,,tools".data "").2.2.2.2.2.1.mpr rfl⟩

end SparkPit
